import Mathlib

/-!
Verification of the Collective Learning Network specification against the
source of the restaurant voice-team repository.

The embedding below translates the data model and operations of
`src/intelligence/CollectiveIntelligence.js` and
`src/intelligence/PredictiveEngine.js` into Lean.  JavaScript numbers are
modelled as rationals, JavaScript objects with possibly-absent fields as
structures of `Option`-typed fields, and thrown exceptions as `Except`
errors.  A handful of helper methods are invoked by the source but defined
nowhere in the repository; each such helper is modelled from the
specification's description and is marked by a doc comment beginning
`Modelled from the spec:`.
-/

namespace RVT

/-- Errors thrown by the JavaScript runtime or by the tensor library. -/
inductive JsError where
  /-- A `TypeError` from reading a property of `undefined`, as raised when a
  handler dereferences a missing field object. -/
  | typeError : JsError
  /-- The error `tf.tensor2d` raises when it cannot infer a shape from an
  empty nested-array argument. -/
  | tensorShapeError : JsError
deriving DecidableEq

/-- JavaScript template interpolation of a possibly-undefined string: an
absent value prints as the text `undefined`. -/
def jsStr (o : Option String) : String :=
  match o with
  | some s => s
  | none => undefinedText
where
  /-- The literal text produced by interpolating `undefined`. -/
  undefinedText : String := "undefined"

/-- JavaScript comparison `o > q` where `o` may be `undefined`: comparing
`undefined` yields `false`. -/
def jsGT (o : Option ℚ) (q : ℚ) : Bool :=
  match o with
  | some x => decide (q < x)
  | none => false

/-- JavaScript addition where `none` stands for a non-numeric operand: the
result of touching `undefined` with `+` is `NaN`, which then poisons every
further sum.  `none` plays the role of `NaN`. -/
def jsAdd (a b : Option ℚ) : Option ℚ :=
  match a, b with
  | some x, some y => some (x + y)
  | _, _ => none

/-- The source's `reduce((a, b) => a + b, 0)` over a list of possibly-missing
numbers: a genuine sum when every sample is a number, `NaN` (here `none`)
otherwise. -/
def jsSum (l : List (Option ℚ)) : Option ℚ :=
  l.foldl jsAdd (some 0)

/-- Sum divided by length, with `NaN` propagation. -/
def jsAvg (l : List (Option ℚ)) : Option ℚ :=
  (jsSum l).map (fun s => s / (l.length : ℚ))

/-- The last element of a list satisfying `q`, or `none`.  Later elements
take precedence, mirroring repeated `Map.set` on the same key. -/
def lastMatch (q : α → Bool) : List α → Option α
  | [] => none
  | a :: l => Option.or (lastMatch q l) (if q a then some a else none)

/-- JavaScript `slice(-n)`: the last `n` elements (the whole list when it is
shorter than `n`). -/
def lastN (n : ℕ) (l : List α) : List α :=
  l.drop (l.length - n)

/-! ## Shared Memory (class `SharedMemory`) -/

namespace SharedMemory

/-- One interaction record consumed by `updateCustomerProfile`.  Only the
`sentiment` field participates in sentiment recomputation; the `items`,
`feedback` and `notes` fields feed the preference-extraction helper (built on
the external `natural` NLP library), which never touches `sentiment` and is
out of scope of the claims. -/
structure Interaction where
  sentiment : Option ℚ
deriving DecidableEq

/-- The slice of a `CustomerProfile` relevant to sentiment: the ordered
interaction history and the stored sentiment.  The preference, allergy and
favourite-item sets are mutated only by the external-NLP preference
extraction and are omitted. -/
structure Profile where
  interactions : List Interaction
  sentiment : ℚ
deriving DecidableEq

/-- `SharedMemory.calculateSentiment` (lines 337–347): map each interaction
to `i.sentiment || 0`, keep the last 10 values, accumulate
`sentiment * ((index + 1) / recent.length)` and divide the accumulated sum by
`recent.length` (not by the sum of the weights). -/
def calculateSentiment (interactions : List Interaction) : ℚ :=
  let sentiments := interactions.map (fun i => i.sentiment.getD 0)
  let recent := lastN 10 sentiments
  let weightedSum :=
    (recent.enum.map (fun p => p.2 * (((p.1 : ℚ) + 1) / (recent.length : ℚ)))).sum
  weightedSum / (recent.length : ℚ)

/-- `SharedMemory.updateCustomerProfile` (lines 294–316): create the profile
on first contact, append the interaction, and recompute the sentiment over
the grown history.  Preference extraction (external NLP) does not touch the
modelled fields. -/
def updateCustomerProfile (profiles : String → Option Profile)
    (customerId : String) (interaction : Interaction) :
    String → Option Profile :=
  let profile := (profiles customerId).getD ⟨[], 0⟩
  let grown := profile.interactions ++ [interaction]
  let updated : Profile := ⟨grown, calculateSentiment grown⟩
  fun k => if k = customerId then some updated else profiles k

/-- The per-report payload `updateEmotionalIntelligence` assembles for
`updateEmotionalMatrix`: every field is copied from an inbound report and may
be absent. -/
structure EmotionalData where
  detected : Option String
  response : Option String
  effectiveness : Option ℚ
  customerFeedback : Option String
deriving DecidableEq

/-- One `EmotionalResponseCell`.  `averageEffectiveness` is absent on the
freshly created cell and is (re)assigned on every update; `none` also stands
for a `NaN` average caused by a missing sample. -/
structure MatrixCell where
  effectiveness : List (Option ℚ)
  count : ℕ
  averageEffectiveness : Option ℚ
deriving DecidableEq

/-- The string key `` `${data.detected}_${data.response}` ``. -/
def emotionalKey (d : EmotionalData) : String :=
  jsStr d.detected ++ keySep ++ jsStr d.response
where
  /-- The underscore separating the two key halves. -/
  keySep : String := "_"

/-- `SharedMemory.updateEmotionalMatrix` (lines 318–335): create the cell if
missing, append the sample, increment `count`, and recompute
`averageEffectiveness` as the plain mean of all stored samples. -/
def updateEmotionalMatrix (matrix : String → Option MatrixCell)
    (data : EmotionalData) : String → Option MatrixCell :=
  let key := emotionalKey data
  let cell := (matrix key).getD ⟨[], 0, none⟩
  let samples := cell.effectiveness ++ [data.effectiveness]
  let updated : MatrixCell := ⟨samples, cell.count + 1, jsAvg samples⟩
  fun k => if k = key then some updated else matrix k

/-- A whole sequence of emotional submissions applied to an empty matrix. -/
def processEmotionalMatrix (submissions : List EmotionalData) :
    String → Option MatrixCell :=
  submissions.foldl updateEmotionalMatrix (fun _ => none)

end SharedMemory

/-! ## Relationship graph (class `Graph`) -/

namespace RelGraph

/-- One directed weighted edge as stored in the `edges` adjacency sets (the
source's field `to` is a reserved word in Lean and is quoted). -/
structure Edge where
  «to» : String
  weight : ℚ
deriving DecidableEq

/-- The descending-weight comparison realised by the source's sort comparator
`(a, b) => b.weight - a.weight`. -/
abbrev edgeGE (a b : Edge) : Prop := b.weight ≤ a.weight

instance : IsTotal Edge edgeGE := ⟨fun a b => le_total b.weight a.weight⟩

instance : IsTrans Edge edgeGE := ⟨fun _ _ _ h1 h2 => le_trans h2 h1⟩

/-- The graph: node data and per-node adjacency lists, both keyed by id. -/
structure Graph where
  nodes : String → Option String
  edges : String → Option (List Edge)

/-- `Graph.findStrongestConnections` (lines 419–424): take the node's edge
set (or the empty list when the node is unknown), sort by descending weight,
and keep the first `limit` entries (the source defaults `limit` to 5). -/
def findStrongestConnections (g : Graph) (nodeId : String) (limit : ℕ) :
    List Edge :=
  (List.insertionSort edgeGE ((g.edges nodeId).getD [])).take limit

end RelGraph

/-! ## Collective Intelligence Coordinator (class `CollectiveIntelligence`) -/

namespace CI

/-- Opaque agent identifier, extracted at connect time. -/
abbrev AgentId := String

/-- The `readyState` values of a WebSocket connection. -/
inductive ReadyState where
  | CONNECTING : ReadyState
  | OPEN : ReadyState
  | CLOSING : ReadyState
  | CLOSED : ReadyState
deriving DecidableEq

/-- Report kind `CUSTOMER_INTERACTION`. -/
def kindCustomerInteraction : String := "CUSTOMER_INTERACTION"

/-- Report kind `CRISIS_HANDLED`. -/
def kindCrisisHandled : String := "CRISIS_HANDLED"

/-- Report kind `SUCCESS_PATTERN`. -/
def kindSuccessPattern : String := "SUCCESS_PATTERN"

/-- Report kind `EMOTIONAL_READ`. -/
def kindEmotionalRead : String := "EMOTIONAL_READ"

/-- Report kind `COLLABORATIVE_SOLUTION`. -/
def kindCollaborativeSolution : String := "COLLABORATIVE_SOLUTION"

/-- The situational `context` object of an inbound report; every field the
handlers read, each possibly absent. -/
structure Ctx where
  situation : Option String
  mood : Option String
  approach : Option String
  crisisType : Option String
  severity : Option ℚ
  actions : Option String
  agentsInvolved : Option (List String)
  action : Option String
  conditions : Option String
deriving DecidableEq

/-- The `outcome` object of an inbound report. -/
structure Outc where
  satisfaction : Option ℚ
  resolved : Option Bool
  duration : Option ℚ
  effectiveness : Option ℚ
  feedback : Option String
deriving DecidableEq

/-- The `emotion` object of an `EMOTIONAL_READ` report. -/
structure Emo where
  detected : Option String
  response : Option String
deriving DecidableEq

/-- The inbound message envelope after `JSON.parse`; destructuring the five
top-level names plus the collaboration fields never throws, so each is simply
an optional value. -/
structure Msg where
  type : Option String
  context : Option Ctx
  outcome : Option Outc
  emotion : Option Emo
  learning : Option String
  agents : Option (List String)
  task : Option String
  coordination : Option String
deriving DecidableEq

/-- The pattern object pushed by `learnFromCustomerInteraction` (the
`Date.now()` timestamp is omitted as no claim depends on it). -/
structure CustPattern where
  situation : Option String
  customerMood : Option String
  approach : Option String
  result : Option ℚ
deriving DecidableEq

/-- The crisis object assembled by `learnCrisisManagement`. -/
structure CrisisObj where
  type : Option String
  severity : Option ℚ
  response : Option String
  resolution : Option Bool
  timeToResolve : Option ℚ
  agentsInvolved : Option (List String)
deriving DecidableEq

/-- The success-pattern object assembled by `recordSuccessPattern` (its
`id`, built from `Date.now()`, and the constant `replicable: true` are
omitted as no claim depends on them).  The whole `outcome` object is stored
as `result` without any field access. -/
structure SuccessObj where
  agent : AgentId
  action : Option String
  conditions : Option String
  result : Option Outc
deriving DecidableEq

/-- A promoted entry of `brain.successPatterns`: the spread of the promoting
report plus the computed `confidence` and the contributing `variations`. -/
structure PromotedSuccess where
  pattern : SuccessObj
  confidence : ℚ
  variations : List SuccessObj
deriving DecidableEq

/-- The collaboration object assembled by `enhanceCollaborationPatterns`. -/
structure Collab where
  agents : Option (List String)
  task : Option String
  coordination : Option String
  outcome : Option Outc
deriving DecidableEq

/-- Observable side effects of report processing.  `send` is a `ws.send` to
one agent; the remaining constructors stand for calls to helpers that the
source invokes but the repository never defines, modelled as opaque emitted
events. -/
inductive Effect where
  /-- A learning payload sent to one connected agent. -/
  | send (recipient : AgentId) (source : AgentId) (learning : Option String)
  /-- Modelled from the spec: `distributeTraining` is absent from the
  repository; §4.3 says every crisis report is broadcast as a training
  example. -/
  | distributeTraining (crisis : CrisisObj)
  /-- Modelled from the spec: `createSOP` is absent from the repository;
  §4.4 says promotion hands an opaque SOP artifact to the runtime. -/
  | createSOP (pattern : SuccessObj)
  /-- Modelled from the spec: `notifyRelevantAgents` is absent from the
  repository; §4.2 says agents sharing the situation key are notified. -/
  | notifyRelevantAgents (situation : Option String)
  /-- Modelled from the spec: `updateCrisisPlaybook` is absent from the
  repository; the emitted event carries the qualifying crisis. -/
  | updateCrisisPlaybook (crisisType : Option String) (crisis : CrisisObj)
  /-- Modelled from the spec: `broadcastEmotionalLearning` is absent from
  the repository; §4.5 says the update is broadcast to all agents. -/
  | broadcastEmotionalLearning (data : SharedMemory.EmotionalData)
  /-- Modelled from the spec: `updateTeamFormations` is absent from the
  repository; §4.6 says the optimal formation is updated. -/
  | updateTeamFormations (agents : Option (List String)) (task : Option String)
deriving DecidableEq

/-- The coordinator's mutable stores plus its connection map.
`bestPractices` and `successReports` back two helpers that the repository
never defines (`extractBestPractice`, `findSimilarPatterns`) and are
modelled from the spec: best-practice candidates are stored alongside
(§4.2), and success reports accumulate so that similar ones can be counted
(§4.4). -/
structure CoordState where
  customerPatterns : Option String → Option (List CustPattern)
  bestPractices : List CustPattern
  crisisResponses : Option String → Option CrisisObj
  successReports : List SuccessObj
  successPatterns : Option String → Option PromotedSuccess
  emotionalMatrix : String → Option SharedMemory.MatrixCell
  agents : List (AgentId × ReadyState)

/-- A coordinator with empty stores and the given connection map. -/
def initState (agents : List (AgentId × ReadyState)) : CoordState :=
  ⟨fun _ => none, [], fun _ => none, [], fun _ => none, fun _ => none, agents⟩

/-- The store-updating core of `learnFromCustomerInteraction` (lines
83–106), reached once `context` and `outcome` are known to be objects:
append the pattern under the `context.situation` key, copy it to the
best-practice store when `outcome.satisfaction > 0.8` (a missing
satisfaction compares as false), and notify agents sharing the situation.
`extractBestPractice` is absent from the repository and is modelled from the
spec as storing the candidate alongside. -/
def learnFromCustomerInteractionCore (st : CoordState) (c : Ctx) (o : Outc) :
    CoordState × List Effect :=
  let pattern : CustPattern := ⟨c.situation, c.mood, c.approach, o.satisfaction⟩
  let existing := (st.customerPatterns c.situation).getD []
  let st1 := { st with
    customerPatterns := fun k =>
      if k = c.situation then some (existing ++ [pattern])
      else st.customerPatterns k }
  let st2 :=
    if jsGT o.satisfaction (4/5) then
      { st1 with bestPractices := st1.bestPractices ++ [pattern] }
    else st1
  (st2, [Effect.notifyRelevantAgents c.situation])

/-- `learnFromCustomerInteraction` as invoked by the dispatcher: the body's
first reads are `context.situation` and `outcome.satisfaction`, so an absent
`context` or `outcome` object throws a `TypeError`. -/
def learnFromCustomerInteraction (st : CoordState) (ctx : Option Ctx)
    (outcome : Option Outc) : Except JsError (CoordState × List Effect) :=
  match ctx, outcome with
  | none, _ => .error .typeError
  | some _, none => .error .typeError
  | some c, some o => .ok (learnFromCustomerInteractionCore st c o)

/-- The store-updating core of `learnCrisisManagement` (lines 111–133).
`calculateEffectiveness` is absent from the repository, so the deterministic
score function is taken as the parameter `effFn`.  When the score exceeds
0.7 the crisis record unconditionally overwrites the
`brain.crisisResponses` entry for its `crisisType`; the training broadcast
happens regardless. -/
def learnCrisisManagementCore (effFn : CrisisObj → ℚ) (st : CoordState)
    (c : Ctx) (o : Outc) : CoordState × List Effect :=
  let crisis : CrisisObj :=
    ⟨c.crisisType, c.severity, c.actions, o.resolved, o.duration, c.agentsInvolved⟩
  let effectiveness := effFn crisis
  let out :=
    if 7/10 < effectiveness then
      ({ st with
          crisisResponses := fun k =>
            if k = c.crisisType then some crisis else st.crisisResponses k },
       [Effect.updateCrisisPlaybook c.crisisType crisis])
    else (st, [])
  (out.1, out.2 ++ [Effect.distributeTraining crisis])

/-- `learnCrisisManagement` as invoked by the dispatcher: it reads
`context.crisisType` and `outcome.resolved`, so either container being
absent throws. -/
def learnCrisisManagement (effFn : CrisisObj → ℚ) (st : CoordState)
    (ctx : Option Ctx) (outcome : Option Outc) :
    Except JsError (CoordState × List Effect) :=
  match ctx, outcome with
  | none, _ => .error .typeError
  | some _, none => .error .typeError
  | some c, some o => .ok (learnCrisisManagementCore effFn st c o)

/-- Modelled from the spec: `findSimilarPatterns` is absent from the
repository.  §4.4 defines two success reports as similar exactly when their
`action` values coincide, the count including the report under test, so the
helper filters the accumulated reports (current one included) by action
equality. -/
def findSimilarPatterns (past : List SuccessObj) (p : SuccessObj) :
    List SuccessObj :=
  (past ++ [p]).filter (fun q => q.action == p.action)

/-- The store-updating core of `recordSuccessPattern` (lines 138–162):
accumulate the report, and when more than 3 similar reports exist promote
the pattern under its `action` key with
`confidence = similarCount / agents.size` — the quotient is stored as
computed, without any clamping.  (In JavaScript a zero `agents.size` would
yield `Infinity`; here the rational division by zero yields 0.  No claim is
decided at that point.) -/
def recordSuccessPatternCore (st : CoordState) (agentId : AgentId) (c : Ctx)
    (outcome : Option Outc) : CoordState × List Effect :=
  let p : SuccessObj := ⟨agentId, c.action, c.conditions, outcome⟩
  let grown := st.successReports ++ [p]
  let similarity := findSimilarPatterns st.successReports p
  if 3 < similarity.length then
    ({ st with
        successReports := grown,
        successPatterns := fun k =>
          if k = c.action then
            some ⟨p, (similarity.length : ℚ) / (st.agents.length : ℚ), similarity⟩
          else st.successPatterns k },
     [Effect.createSOP p])
  else ({ st with successReports := grown }, [])

/-- `recordSuccessPattern` as invoked by the dispatcher: it reads
`context.action`, so an absent `context` throws; the `outcome` object is
stored whole and never dereferenced. -/
def recordSuccessPattern (st : CoordState) (agentId : AgentId)
    (ctx : Option Ctx) (outcome : Option Outc) :
    Except JsError (CoordState × List Effect) :=
  match ctx with
  | none => .error .typeError
  | some c => .ok (recordSuccessPatternCore st agentId c outcome)

/-- The store-updating core of `updateEmotionalIntelligence` (lines
167–180): assemble the emotional payload and update the shared matrix.
`broadcastEmotionalLearning` is absent from the repository and is modelled
from the spec as an emitted broadcast event. -/
def updateEmotionalIntelligenceCore (st : CoordState) (e : Emo) (o : Outc) :
    CoordState × List Effect :=
  let data : SharedMemory.EmotionalData :=
    ⟨e.detected, e.response, o.effectiveness, o.feedback⟩
  ({ st with
      emotionalMatrix := SharedMemory.updateEmotionalMatrix st.emotionalMatrix data },
   [Effect.broadcastEmotionalLearning data])

/-- `updateEmotionalIntelligence` as invoked by the dispatcher: it reads
`emotion.detected` and `outcome.effectiveness`, so either container being
absent throws. -/
def updateEmotionalIntelligence (st : CoordState) (emotion : Option Emo)
    (outcome : Option Outc) : Except JsError (CoordState × List Effect) :=
  match emotion, outcome with
  | none, _ => .error .typeError
  | some _, none => .error .typeError
  | some e, some o => .ok (updateEmotionalIntelligenceCore st e o)

/-- `enhanceCollaborationPatterns` (lines 185–199): the collaboration object
is assembled from optional fields without dereferencing, so nothing can
throw.  `analyzeTeamDynamics` is absent from the repository and is taken as
the parameter `teamFn`; a score above 0.85 updates the team formations. -/
def enhanceCollaborationPatterns (teamFn : Collab → ℚ) (st : CoordState)
    (msg : Msg) : CoordState × List Effect :=
  let collaboration : Collab := ⟨msg.agents, msg.task, msg.coordination, msg.outcome⟩
  if 17/20 < teamFn collaboration then
    (st, [Effect.updateTeamFormations collaboration.agents collaboration.task])
  else (st, [])

/-- `broadcastLearning` (lines 242–255): send the distilled learning message
to every connection other than the source whose socket is `OPEN`. -/
def broadcastLearning (agents : List (AgentId × ReadyState))
    (sourceAgent : AgentId) (learning : Option String) : List Effect :=
  agents.filterMap (fun e =>
    if e.1 ≠ sourceAgent ∧ e.2 = ReadyState.OPEN then
      some (Effect.send e.1 sourceAgent learning)
    else none)

/-- `processAgentCommunication` (lines 51–78): dispatch on the report kind —
an unrecognized or missing kind falls through the switch untouched — then
broadcast the distilled learning to every other connected agent.  No
validation or try/catch surrounds any handler. -/
def processAgentCommunication (effFn : CrisisObj → ℚ) (teamFn : Collab → ℚ)
    (st : CoordState) (agentId : AgentId) (msg : Msg) :
    Except JsError (CoordState × List Effect) := do
  let handled ←
    match msg.type with
    | some t =>
      if t = kindCustomerInteraction then
        learnFromCustomerInteraction st msg.context msg.outcome
      else if t = kindCrisisHandled then
        learnCrisisManagement effFn st msg.context msg.outcome
      else if t = kindSuccessPattern then
        recordSuccessPattern st agentId msg.context msg.outcome
      else if t = kindEmotionalRead then
        updateEmotionalIntelligence st msg.emotion msg.outcome
      else if t = kindCollaborativeSolution then
        .ok (enhanceCollaborationPatterns teamFn st msg)
      else .ok (st, [])
    | none => .ok (st, [])
  .ok (handled.1, handled.2 ++ broadcastLearning handled.1.agents agentId msg.learning)

/-- The per-connection message callback (lines 39–41): `JSON.parse` runs
first and its failure — like any handler failure — propagates out of the
callback uncaught. -/
def meshMessageHandler (effFn : CrisisObj → ℚ) (teamFn : Collab → ℚ)
    (st : CoordState) (agentId : AgentId) (parsed : Except JsError Msg) :
    Except JsError (CoordState × List Effect) :=
  parsed.bind (processAgentCommunication effFn teamFn st agentId)

/-- A sequence of well-formed `SUCCESS_PATTERN` reports applied in order:
each entry is the source agent, its `context` and its `outcome`. -/
def processSuccessReports (agents : List (AgentId × ReadyState))
    (reports : List (AgentId × Ctx × Option Outc)) : CoordState :=
  reports.foldl
    (fun st r => (recordSuccessPatternCore st r.1 r.2.1 r.2.2).1)
    (initState agents)

/-- A sequence of well-formed `CRISIS_HANDLED` reports applied in order. -/
def processCrisisReports (effFn : CrisisObj → ℚ)
    (agents : List (AgentId × ReadyState)) (reports : List (Ctx × Outc)) :
    CoordState :=
  reports.foldl
    (fun st r => (learnCrisisManagementCore effFn st r.1 r.2).1)
    (initState agents)

/-- The success object a well-formed `SUCCESS_PATTERN` report gives rise
to. -/
def toSuccessObj (r : AgentId × Ctx × Option Outc) : SuccessObj :=
  ⟨r.1, r.2.1.action, r.2.1.conditions, r.2.2⟩

/-- The crisis object a well-formed `CRISIS_HANDLED` report gives rise
to. -/
def toCrisisObj (r : Ctx × Outc) : CrisisObj :=
  ⟨r.1.crisisType, r.1.severity, r.1.actions, r.2.resolved, r.2.duration,
    r.1.agentsInvolved⟩

end CI

/-! ## Predictive Engine (class `PredictiveEngine`) -/

namespace PE

/-- The value `predictNextOrder` returns: candidate items and a confidence
(the `reasoning` string produced by the absent `explainPrediction` helper is
omitted as no claim depends on it). -/
structure NextOrderPrediction where
  items : List String
  confidence : ℚ
deriving DecidableEq

/-- `predictNextOrder` (lines 97–127): with fewer than 3 history entries it
returns `{ items: [], confidence: 0 }` before touching anything else.  The
longer-history branch — pattern extraction, time factors and the TensorFlow
model, all reached through helpers absent from the repository — is
abstracted into the `model` parameter. -/
def predictNextOrder {α : Type} (model : List α → List String × ℚ)
    (history : List α) : NextOrderPrediction :=
  if history.length < 3 then ⟨[], 0⟩
  else ⟨(model history).1, (model history).2⟩

/-- `tf.tensor2d` applied to a nested array without an explicit shape: the
external library infers the shape from the argument and throws when handed
an empty array.  A non-empty history is returned unchanged. -/
def tensor2d (values : List (List ℚ)) : Except JsError (List (List ℚ)) :=
  if values.isEmpty then .error .tensorShapeError else .ok values

/-- One entry of the 7-day forecast.  `date` is the day offset that
`addDays(new Date(), i)` encodes; a forecast position beyond the model
output is `undefined`, rounding to `NaN`, kept as `none`. -/
structure DayForecast where
  date : ℕ
  expectedCovers : Option ℤ
  peakHour : Option ℤ
  confidence : ℚ
deriving DecidableEq

/-- The `predictions` object `forecastDemand` assembles (`hourly` is
initialised empty and never filled by the source). -/
structure DemandForecast where
  daily : List DayForecast
  hourly : List ℚ
  items : List (String × ℚ)
deriving DecidableEq

/-- `forecastDemand` (lines 206–244): build a tensor from the historical
data — there is no history-length guard, so an empty history makes the
tensor constructor throw — then read 14 forecast values into 7 day entries.
The absent helpers are parameters: `model` for `demandForecast.predict`,
`confF` for `calculateForecastConfidence`, and `topItems` for the item-level
loop over `getTopItems`/`forecastItemDemand`. -/
def forecastDemand (model : List (List ℚ) → List ℚ)
    (confF : List (List ℚ) → ℕ → ℚ) (topItems : List (String × ℚ))
    (historicalData : List (List ℚ)) : Except JsError DemandForecast := do
  let _ ← tensor2d historicalData
  let forecastData := model historicalData
  let daily := (List.range 7).map (fun i =>
    ⟨i, (forecastData.get? (i * 2)).map round,
      (forecastData.get? (i * 2 + 1)).map round,
      confF historicalData i⟩)
  .ok ⟨daily, [], topItems⟩

/-- The fixed weight vector of `calculateConfidence`. -/
def confWeights : List ℚ := [3/10, 1/5, 1/5, 3/20, 3/20]

/-- The accumulation `sum + conf * (weights[i] || 0.1)` of
`calculateConfidence`: each kept confidence is paired with the weight at its
position in the filtered list, positions past the weight vector falling back
to 0.1.  No renormalisation takes place. -/
def weightedConfSum : List ℚ → List ℚ → ℚ
  | _, [] => 0
  | [], c :: cs => c * (1/10) + weightedConfSum [] cs
  | w :: ws, c :: cs => c * w + weightedConfSum ws cs

/-- `calculateConfidence` (lines 421–434): collect the `confidence` fields
of the sub-predictions — an entry is kept only when the field exists and is
truthy, so a present-but-zero confidence is dropped like a missing one —
and fold the weighted accumulation over the survivors. -/
def calculateConfidence (preds : List (Option ℚ)) : ℚ :=
  let confidences := (preds.filterMap id).filter (fun c => !(c == 0))
  weightedConfSum confWeights confidences

/-- The value of `predictArrivalTime` consumed by the action generator: the
mode slot and its probability (the alternative-times list is omitted as no
claim depends on it). -/
structure ArrivalPrediction where
  estimatedTime : String
  probability : ℚ
deriving DecidableEq

/-- One special-occasion candidate from `predictSpecialRequests`. -/
structure SpecialRequest where
  type : String
  action : String
  confidence : ℚ
deriving DecidableEq

/-- The prediction bundle handed to `generateProactiveActions`; each
sub-prediction may be absent (a missing `churnRisk` compares as false in the
source's guard). -/
structure PredictionsBundle where
  nextOrder : Option NextOrderPrediction
  arrivalTime : Option ArrivalPrediction
  specialRequest : Option (List SpecialRequest)
  satisfaction : Option ℚ
  churnRisk : Option ℚ
deriving DecidableEq

/-- The four guard thresholds of `generateProactiveActions`, lifted to a
parameter so threshold variations can be compared. -/
structure Thresholds where
  arrival : ℚ
  nextOrder : ℚ
  churn : ℚ
  special : ℚ
deriving DecidableEq

/-- The literal thresholds of the source: arrival-time probability 0.7
(line 347), next-order confidence 0.8 (line 358), churn risk 0.6 (line 369)
and special-request confidence 0.8 (line 380). -/
def defaultThresholds : Thresholds := ⟨7/10, 4/5, 3/5, 4/5⟩

/-- The `type` tags of the generated actions. -/
inductive ActionType where
  | PREPARE_TABLE : ActionType
  | PREP_INGREDIENTS : ActionType
  | RETENTION : ActionType
  | SPECIAL_PREP : ActionType
deriving DecidableEq

/-- One proactive action; fields that only some action kinds carry are
optional. -/
structure ProactiveAction where
  type : ActionType
  priority : String
  agent : String
  time : Option String
  items : Option (List String)
deriving DecidableEq

/-- Priority label `high`. -/
def prioHigh : String := "high"

/-- Priority label `medium`. -/
def prioMedium : String := "medium"

/-- Agent tag `marcus`. -/
def agentMarcus : String := "marcus"

/-- Agent tag `sophia`. -/
def agentSophia : String := "sophia"

/-- Agent tag `chen`. -/
def agentChen : String := "chen"

/-- Request type `birthday`. -/
def typeBirthday : String := "birthday"

/-- The table-preparation push of `generateProactiveActions` (lines
346–355): fires when the arrival probability beats the threshold. -/
def arrivalActions (th : Thresholds) (p : PredictionsBundle) :
    List ProactiveAction :=
  match p.arrivalTime with
  | some a =>
    if th.arrival < a.probability then
      [⟨ActionType.PREPARE_TABLE, prioHigh, agentMarcus, some a.estimatedTime, none⟩]
    else []
  | none => []

/-- The ingredient-prep push (lines 357–366): fires when the next-order
confidence beats the threshold. -/
def nextOrderActions (th : Thresholds) (p : PredictionsBundle) :
    List ProactiveAction :=
  match p.nextOrder with
  | some n =>
    if th.nextOrder < n.confidence then
      [⟨ActionType.PREP_INGREDIENTS, prioMedium, agentSophia, none, some n.items⟩]
    else []
  | none => []

/-- The retention push (lines 368–376): fires when the churn risk beats the
threshold (an absent churn risk compares as false). -/
def churnActions (th : Thresholds) (p : PredictionsBundle) :
    List ProactiveAction :=
  match p.churnRisk with
  | some c =>
    if th.churn < c then
      [⟨ActionType.RETENTION, prioHigh, agentMarcus, none, none⟩]
    else []
  | none => []

/-- The special-occasion pushes (lines 378–388): one action per special
request whose confidence beats the threshold; birthday requests go to chen,
the rest to marcus. -/
def specialActions (th : Thresholds) (p : PredictionsBundle) :
    List ProactiveAction :=
  match p.specialRequest with
  | some rs =>
    rs.filterMap (fun r =>
      if th.special < r.confidence then
        some ⟨ActionType.SPECIAL_PREP, prioHigh,
          if r.type == typeBirthday then agentChen else agentMarcus, none, none⟩
      else none)
  | none => []

/-- `generateProactiveActions` (lines 343–391) with its guards' thresholds
as the parameter `th`: the four guarded pushes in source order.  The free
`action` strings are omitted as no claim depends on them. -/
def generateProactiveActions (th : Thresholds) (p : PredictionsBundle) :
    List ProactiveAction :=
  arrivalActions th p ++ nextOrderActions th p ++ churnActions th p
    ++ specialActions th p

end PE

/-! ## Named example inputs used by witnesses and counterexamples -/

/-- Sample agent id. -/
def agentA : String := "a1"

/-- Second sample agent id. -/
def agentB : String := "a2"

/-- Sample node id. -/
def nodeX : String := "x"

/-- A graph with no nodes and no recorded edges. -/
def gEmptyExample : RelGraph.Graph := ⟨fun _ => none, fun _ => none⟩

/-- A demand model emitting a constant 14-value forecast. -/
def demoModel : List (List ℚ) → List ℚ := fun _ => List.replicate 14 50

/-- A constant forecast-confidence helper. -/
def demoConf : List (List ℚ) → ℕ → ℚ := fun _ _ => 1

/-- A next-order model predicting nothing with full confidence. -/
def demoOrderModel : List ℕ → List String × ℚ := fun _ => ([], 1)

/-! ## Claim theorems -/

/-- The effectiveness samples a submission sequence contributes to one
matrix key, in arrival order. -/
def emotionalSamples (k : String) (ds : List SharedMemory.EmotionalData) :
    List (Option ℚ) :=
  (ds.filter (fun d => SharedMemory.emotionalKey d == k)).map
    SharedMemory.EmotionalData.effectiveness

/-- Accumulating the possibly-missing samples from a sum of plain numbers
stays a plain number carrying the genuine sum. -/
theorem jsSum_map_some (cs : List ℚ) (a : ℚ) :
    (cs.map some).foldl jsAdd (some a) = some (a + cs.sum) := by
  induction cs generalizing a with
  | nil => simp
  | cons c cs ih => simp [jsAdd, ih, add_assoc]

/-- The mean of a list of plain numeric samples is sum over length. -/
theorem jsAvg_map_some (cs : List ℚ) :
    jsAvg (cs.map some) = some (cs.sum / (cs.length : ℚ)) := by
  simp [jsAvg, jsSum, jsSum_map_some]

/-- Claim C7: each emotional submission bumps the count of its
`(detected, response)` cell by exactly one — so the count equals the number
of submissions received for that key — and `averageEffectiveness` is always
the arithmetic mean of the samples stored for the key. -/
theorem C7_emotional_matrix_counts :
    (∀ (ds : List SharedMemory.EmotionalData) (k : String),
        SharedMemory.processEmotionalMatrix ds k =
          if emotionalSamples k ds = [] then none
          else some ⟨emotionalSamples k ds, (emotionalSamples k ds).length,
            jsAvg (emotionalSamples k ds)⟩)
    ∧ (∀ (m : String → Option SharedMemory.MatrixCell)
        (d : SharedMemory.EmotionalData),
        (SharedMemory.updateEmotionalMatrix m d (SharedMemory.emotionalKey d)).map
            SharedMemory.MatrixCell.count
          = some (((m (SharedMemory.emotionalKey d)).getD ⟨[], 0, none⟩).count + 1))
    ∧ (∀ cs : List ℚ,
        jsAvg (cs.map some) = some (cs.sum / (cs.length : ℚ))) := by
  refine ⟨?_, ?_, jsAvg_map_some⟩
  · intro ds k
    induction ds using List.reverseRecOn with
    | nil => simp [SharedMemory.processEmotionalMatrix, emotionalSamples]
    | append_singleton ds d ih =>
      have hfold : SharedMemory.processEmotionalMatrix (ds ++ [d]) =
          SharedMemory.updateEmotionalMatrix
            (SharedMemory.processEmotionalMatrix ds) d := by
        simp [SharedMemory.processEmotionalMatrix, List.foldl_append]
      have hsapp : emotionalSamples k (ds ++ [d]) =
          if SharedMemory.emotionalKey d = k then
            emotionalSamples k ds ++ [d.effectiveness]
          else emotionalSamples k ds := by
        by_cases h : SharedMemory.emotionalKey d = k
        · simp [emotionalSamples, List.filter_append, List.filter_cons, h]
        · simp [emotionalSamples, List.filter_append, List.filter_cons, h]
      rw [hfold]
      by_cases hk : k = SharedMemory.emotionalKey d
      · have hkey : SharedMemory.emotionalKey d = k := hk.symm
        rw [if_pos hkey] at hsapp
        simp only [SharedMemory.updateEmotionalMatrix]
        rw [hkey, if_pos rfl]
        by_cases h0 : emotionalSamples k ds = []
        · rw [if_pos h0] at ih
          simp [ih, hsapp, h0]
        · rw [if_neg h0] at ih
          simp only [ih, Option.getD_some]
          rw [hsapp]
          have hne : emotionalSamples k ds ++ [d.effectiveness] ≠ [] := by simp
          rw [if_neg hne]
          simp
      · have hk2 : SharedMemory.emotionalKey d ≠ k := fun h => hk h.symm
        rw [if_neg hk2] at hsapp
        simp only [SharedMemory.updateEmotionalMatrix]
        rw [if_neg hk, hsapp]
        exact ih
  · intro m d
    simp [SharedMemory.updateEmotionalMatrix]

/-- Sample customer id. -/
def custC : String := "c1"

/-- Taking the last `n` elements twice is the same as taking them once. -/
theorem lastN_lastN (n : ℕ) (l : List α) : lastN n (lastN n l) = lastN n l := by
  unfold lastN
  rw [List.length_drop]
  have h : l.length - (l.length - n) - n = 0 := by omega
  rw [h, List.drop_zero]

/-- The last-`n` window commutes with mapping. -/
theorem lastN_map (f : α → β) (n : ℕ) (l : List α) :
    lastN n (l.map f) = (lastN n l).map f := by
  simp [lastN, List.map_drop]

/-- Claim C5 (amended): the stored sentiment after each update is
`calculateSentiment` of the grown history, which depends only on the last 10
interactions (adding an 11th drops the 1st, with weight `(index+1)/n`
strictly increasing towards the most recent); however the accumulated
weighted sum is divided by the window length rather than by the total
weight, so the result is not a weighted mean — two interactions of sentiment
1 store 3/4, not 1. -/
theorem C5_sentiment_window_amended :
    (∀ (profiles : String → Option SharedMemory.Profile) (cid : String)
        (i : SharedMemory.Interaction),
        ((SharedMemory.updateCustomerProfile profiles cid i) cid).map
            SharedMemory.Profile.sentiment
          = some (SharedMemory.calculateSentiment
              ((((profiles cid).getD ⟨[], 0⟩).interactions) ++ [i])))
    ∧ (∀ l : List SharedMemory.Interaction,
        SharedMemory.calculateSentiment l
          = SharedMemory.calculateSentiment (lastN 10 l))
    ∧ (∀ (i0 : SharedMemory.Interaction) (rest : List SharedMemory.Interaction),
        rest.length = 10 →
        SharedMemory.calculateSentiment (i0 :: rest)
          = SharedMemory.calculateSentiment rest)
    ∧ SharedMemory.calculateSentiment [⟨some 1⟩, ⟨some 1⟩] = 3/4 := by
  have hwindow : ∀ l : List SharedMemory.Interaction,
      SharedMemory.calculateSentiment l
        = SharedMemory.calculateSentiment (lastN 10 l) := by
    intro l
    simp only [SharedMemory.calculateSentiment]
    simp only [lastN_map]
    rw [lastN_lastN]
  refine ⟨?_, hwindow, ?_, ?_⟩
  · intro profiles cid i
    simp [SharedMemory.updateCustomerProfile]
  · intro i0 rest h
    have hdrop : lastN 10 (i0 :: rest) = rest := by
      simp [lastN, h]
    rw [hwindow (i0 :: rest), hdrop]
  · norm_num [SharedMemory.calculateSentiment, lastN, List.enum, List.enumFrom]

/-- Counterexample for C5: submitting two interactions of sentiment 1 stores
a sentiment of 3/4, while a weighted mean of two equal values — under any
weighting whatsoever — is that value, 1. -/
theorem C5_sentiment_counterexample :
    ((SharedMemory.updateCustomerProfile
        (SharedMemory.updateCustomerProfile (fun _ => none) custC ⟨some 1⟩)
        custC ⟨some 1⟩) custC).map SharedMemory.Profile.sentiment = some (3/4)
    ∧ ¬((3 : ℚ)/4 = 1) := by
  constructor
  · norm_num [SharedMemory.updateCustomerProfile, SharedMemory.calculateSentiment,
      lastN, List.enum, List.enumFrom]
  · norm_num

/-- Witness for C5 (amended): with a full 10-interaction window an 11th,
older head interaction does not change the computed sentiment. -/
theorem C5_sentiment_window_witness :
    SharedMemory.calculateSentiment
        (⟨some 5⟩ :: List.replicate 10 ⟨some 1⟩)
      = SharedMemory.calculateSentiment (List.replicate 10 ⟨some 1⟩) :=
  C5_sentiment_window_amended.2.2.1 ⟨some 5⟩ (List.replicate 10 ⟨some 1⟩)
    (by decide)

/-- Sample action label. -/
def actionDessert : String := "offer_dessert"

/-- A context carrying only the success-pattern `action` field. -/
def ctxDessert : CI.Ctx :=
  ⟨none, none, none, none, none, none, none, some actionDessert, none⟩

/-- Four same-action success reports from two alternating agents. -/
def successReportsExample : List (CI.AgentId × CI.Ctx × Option CI.Outc) :=
  [(agentA, ctxDessert, none), (agentB, ctxDessert, none),
   (agentA, ctxDessert, none), (agentB, ctxDessert, none)]

/-- The success reports of a sequence that are similar to (share the action
of) the key `a`. -/
def simsFor (a : Option String)
    (reports : List (CI.AgentId × CI.Ctx × Option CI.Outc)) :
    List CI.SuccessObj :=
  (reports.map CI.toSuccessObj).filter (fun q => q.action == a)

/-- Folding success reports accumulates exactly their success objects. -/
theorem successFold_reports
    (reports : List (CI.AgentId × CI.Ctx × Option CI.Outc))
    (st : CI.CoordState) :
    (reports.foldl (fun s r => (CI.recordSuccessPatternCore s r.1 r.2.1 r.2.2).1)
        st).successReports
      = st.successReports ++ reports.map CI.toSuccessObj := by
  induction reports generalizing st with
  | nil => simp
  | cons r rs ih =>
    rw [List.foldl_cons, ih]
    have hcore : (CI.recordSuccessPatternCore st r.1 r.2.1 r.2.2).1.successReports
        = st.successReports ++ [CI.toSuccessObj r] := by
      simp only [CI.recordSuccessPatternCore]
      split <;> rfl
    rw [hcore]
    simp

/-- Folding success reports leaves the connection map untouched. -/
theorem successFold_agents
    (reports : List (CI.AgentId × CI.Ctx × Option CI.Outc))
    (st : CI.CoordState) :
    (reports.foldl (fun s r => (CI.recordSuccessPatternCore s r.1 r.2.1 r.2.2).1)
        st).agents = st.agents := by
  induction reports generalizing st with
  | nil => rfl
  | cons r rs ih =>
    rw [List.foldl_cons, ih]
    simp only [CI.recordSuccessPatternCore]
    split <;> rfl

/-- One success report changes the promoted-pattern store only at its own
action key, and only when more than 3 accumulated reports share that
action. -/
theorem recordSuccess_patterns_step (st : CI.CoordState) (ag : CI.AgentId)
    (c : CI.Ctx) (o : Option CI.Outc) (a : Option String) :
    (CI.recordSuccessPatternCore st ag c o).1.successPatterns a =
      if 3 < ((st.successReports ++ [(⟨ag, c.action, c.conditions, o⟩ : CI.SuccessObj)]).filter
            (fun q => q.action == c.action)).length ∧ a = c.action then
        some ⟨⟨ag, c.action, c.conditions, o⟩,
          (((st.successReports ++ [(⟨ag, c.action, c.conditions, o⟩ : CI.SuccessObj)]).filter
              (fun q => q.action == c.action)).length : ℚ) / (st.agents.length : ℚ),
          (st.successReports ++ [(⟨ag, c.action, c.conditions, o⟩ : CI.SuccessObj)]).filter
            (fun q => q.action == c.action)⟩
      else st.successPatterns a := by
  simp only [CI.recordSuccessPatternCore, CI.findSimilarPatterns]
  by_cases h1 : 3 < ((st.successReports ++ [(⟨ag, c.action, c.conditions, o⟩ : CI.SuccessObj)]).filter
      (fun q => q.action == c.action)).length
  · rw [if_pos h1]
    by_cases h2 : a = c.action
    · rw [if_pos ⟨h1, h2⟩]
      simp [h2]
    · rw [if_neg (fun hh => h2 hh.2)]
      simp [h2]
  · rw [if_neg h1, if_neg (fun hh : _ ∧ _ => h1 hh.1)]

/-- Claim C1 (amended): a success pattern is promoted for an action exactly
when at least 4 reports share that action; the promoted record stores the
latest sharing report, all sharing reports as variations, and the
confidence `count / activeAgents` exactly as the quotient — without the
clamping to [0, 1] asserted by the claim. -/
theorem C1_success_promotion_amended
    (agents : List (CI.AgentId × CI.ReadyState))
    (reports : List (CI.AgentId × CI.Ctx × Option CI.Outc)) (a : Option String) :
    (CI.processSuccessReports agents reports).successPatterns a
      = if 4 ≤ (simsFor a reports).length then
          (simsFor a reports).getLast?.map
            (fun p => (⟨p, ((simsFor a reports).length : ℚ) / (agents.length : ℚ),
              simsFor a reports⟩ : CI.PromotedSuccess))
        else none := by
  induction reports using List.reverseRecOn with
  | nil => simp [CI.processSuccessReports, CI.initState, simsFor]
  | append_singleton rs r ih =>
    obtain ⟨ag, c, o⟩ := r
    have hfold : CI.processSuccessReports agents (rs ++ [(ag, c, o)])
        = (CI.recordSuccessPatternCore (CI.processSuccessReports agents rs)
            ag c o).1 := by
      simp [CI.processSuccessReports, List.foldl_append]
    have hrep : (CI.processSuccessReports agents rs).successReports
        = rs.map CI.toSuccessObj := by
      simpa [CI.initState] using
        successFold_reports rs (CI.initState agents)
    have hag : (CI.processSuccessReports agents rs).agents = agents := by
      simpa [CI.initState] using
        successFold_agents rs (CI.initState agents)
    have hobj : CI.toSuccessObj (ag, c, o) = ⟨ag, c.action, c.conditions, o⟩ := rfl
    have hsims : ∀ b : Option String, simsFor b (rs ++ [(ag, c, o)])
        = (rs.map CI.toSuccessObj ++ [(⟨ag, c.action, c.conditions, o⟩ : CI.SuccessObj)]).filter
            (fun q => q.action == b) := by
      intro b
      simp [simsFor, List.filter_append, hobj]
    rw [hfold, recordSuccess_patterns_step, hrep, hag]
    by_cases h2 : a = c.action
    · subst h2
      by_cases h1 : 3 < ((rs.map CI.toSuccessObj ++ [(⟨ag, c.action, c.conditions, o⟩ : CI.SuccessObj)]).filter
          (fun q => q.action == c.action)).length
      · rw [if_pos ⟨h1, rfl⟩]
        rw [hsims c.action]
        have hlast : ((rs.map CI.toSuccessObj ++ [(⟨ag, c.action, c.conditions, o⟩ : CI.SuccessObj)]).filter
            (fun q => q.action == c.action)).getLast?
            = some ⟨ag, c.action, c.conditions, o⟩ := by
          rw [List.filter_append]
          have hone : ([(⟨ag, c.action, c.conditions, o⟩ : CI.SuccessObj)].filter
              (fun q => q.action == c.action)) = [⟨ag, c.action, c.conditions, o⟩] := by
            simp
          rw [hone, List.getLast?_concat]
        rw [if_pos (by omega), hlast]
        simp
      · rw [if_neg (fun hh : _ ∧ _ => h1 hh.1)]
        rw [ih, hsims c.action]
        have hsameA : simsFor c.action rs
            = (rs.map CI.toSuccessObj).filter (fun q => q.action == c.action) := rfl
        have hsplit : ((rs.map CI.toSuccessObj ++ [(⟨ag, c.action, c.conditions, o⟩ : CI.SuccessObj)]).filter
            (fun q => q.action == c.action)).length
            = (simsFor c.action rs).length + 1 := by
          rw [List.filter_append, hsameA]
          simp
        have hle : ¬ 4 ≤ (simsFor c.action rs).length := by omega
        have hle2 : ¬ 4 ≤ ((rs.map CI.toSuccessObj ++ [(⟨ag, c.action, c.conditions, o⟩ : CI.SuccessObj)]).filter
            (fun q => q.action == c.action)).length := by omega
        rw [if_neg hle, if_neg hle2]
    · rw [if_neg (fun hh : _ ∧ _ => h2 hh.2), ih, hsims a]
      have hdrop : ((rs.map CI.toSuccessObj ++ [(⟨ag, c.action, c.conditions, o⟩ : CI.SuccessObj)]).filter
          (fun q => q.action == a))
          = (rs.map CI.toSuccessObj).filter (fun q => q.action == a) := by
        rw [List.filter_append]
        have : ([(⟨ag, c.action, c.conditions, o⟩ : CI.SuccessObj)].filter
            (fun q => q.action == a)) = [] := by
          simp
          exact fun hh => h2 hh.symm
        rw [this, List.append_nil]
      rw [hdrop]
      rfl

/-- Counterexample for C1: four same-action reports among two active agents
store confidence 4/2 = 2, outside [0, 1] — the claimed clamping does not
happen. -/
theorem C1_unclamped_confidence_counterexample :
    ((CI.processSuccessReports
          [(agentA, CI.ReadyState.OPEN), (agentB, CI.ReadyState.OPEN)]
          successReportsExample).successPatterns (some actionDessert)).map
        CI.PromotedSuccess.confidence = some 2
    ∧ ¬((2 : ℚ) ≤ 1) := by
  constructor
  · norm_num [CI.processSuccessReports, CI.initState, CI.recordSuccessPatternCore,
      CI.findSimilarPatterns, successReportsExample, ctxDessert,
      List.foldl_cons, List.filter_append]
  · norm_num

/-- Sample crisis type. -/
def crisisFire : String := "fire"

/-- Modelled from the spec: a representative effectiveness score compatible
with §4.3 — a boolean gate on `resolved` and monotone in the handled
`severity` (the repository never defines `calculateEffectiveness`, which
the embedding takes as a parameter; this instance is used by the concrete
counterexample only). -/
def effSeverity : CI.CrisisObj → ℚ := fun cr =>
  if cr.resolution.getD false then cr.severity.getD 0 else 0

/-- A severity-0.9 resolved crisis context. -/
def ctxFireHigh : CI.Ctx :=
  ⟨none, none, none, some crisisFire, some (9/10), none, none, none, none⟩

/-- A severity-0.75 resolved crisis context of the same type. -/
def ctxFireLow : CI.Ctx :=
  ⟨none, none, none, some crisisFire, some (3/4), none, none, none, none⟩

/-- A resolved outcome. -/
def outcResolved : CI.Outc := ⟨none, some true, some 5, none, none⟩

/-- One crisis report overwrites its `crisisType` entry exactly when the
score beats 0.7, regardless of what was stored before. -/
theorem learnCrisis_step (effFn : CI.CrisisObj → ℚ) (st : CI.CoordState)
    (c : CI.Ctx) (o : CI.Outc) (t : Option String) :
    (CI.learnCrisisManagementCore effFn st c o).1.crisisResponses t
      = Option.or
          (if (CI.toCrisisObj (c, o)).type == t
              && decide (7/10 < effFn (CI.toCrisisObj (c, o))) then
            some (CI.toCrisisObj (c, o))
          else none)
          (st.crisisResponses t) := by
  have hcr : CI.toCrisisObj (c, o)
      = ⟨c.crisisType, c.severity, c.actions, o.resolved, o.duration,
          c.agentsInvolved⟩ := rfl
  simp only [CI.learnCrisisManagementCore, hcr]
  by_cases he : 7/10 < effFn ⟨c.crisisType, c.severity, c.actions, o.resolved,
      o.duration, c.agentsInvolved⟩
  · rw [if_pos he]
    by_cases ht : t = c.crisisType
    · subst ht
      simp [he]
    · have hne : (⟨c.crisisType, c.severity, c.actions, o.resolved, o.duration,
          c.agentsInvolved⟩ : CI.CrisisObj).type ≠ t := fun hh => ht hh.symm
      simp only []
      rw [if_neg ht]
      have hb : ((⟨c.crisisType, c.severity, c.actions, o.resolved, o.duration,
          c.agentsInvolved⟩ : CI.CrisisObj).type == t) = false := by
        simpa using hne
      rw [hb]
      simp
  · rw [if_neg he]
    have hd : decide (7/10 < effFn ⟨c.crisisType, c.severity, c.actions,
        o.resolved, o.duration, c.agentsInvolved⟩) = false := by
      simpa using he
    rw [hd]
    simp

/-- Folding crisis reports: the stored entry for a type is the most recent
qualifying (score above 0.7) report of that type, falling back to whatever
the initial store held. -/
theorem crisisFold_lastMatch (effFn : CI.CrisisObj → ℚ)
    (reports : List (CI.Ctx × CI.Outc)) (st : CI.CoordState) (t : Option String) :
    (reports.foldl (fun s r => (CI.learnCrisisManagementCore effFn s r.1 r.2).1)
        st).crisisResponses t
      = Option.or
          (lastMatch (fun cr => cr.type == t && decide (7/10 < effFn cr))
            (reports.map CI.toCrisisObj))
          (st.crisisResponses t) := by
  induction reports generalizing st with
  | nil => simp [lastMatch]
  | cons r rs ih =>
    rw [List.foldl_cons, ih, List.map_cons]
    show _ = Option.or (lastMatch _ (CI.toCrisisObj r :: _)) _
    rw [lastMatch]
    have hstep := learnCrisis_step effFn st r.1 r.2 t
    rw [hstep]
    cases lastMatch (fun cr => cr.type == t && decide (7/10 < effFn cr))
        (rs.map CI.toCrisisObj) with
    | none => simp
    | some x => simp

/-- Claim C2 (amended): the `brain.crisisResponses` entry for a crisis type
is always the most recent report of that type whose effectiveness exceeded
0.7 — the overwrite is unconditional, so a later lower-effectiveness
qualifying report replaces a stored higher-effectiveness one. -/
theorem C2_crisis_playbook_amended (effFn : CI.CrisisObj → ℚ)
    (agents : List (CI.AgentId × CI.ReadyState))
    (reports : List (CI.Ctx × CI.Outc)) (t : Option String) :
    (CI.processCrisisReports effFn agents reports).crisisResponses t
      = lastMatch (fun cr => cr.type == t && decide (7/10 < effFn cr))
          (reports.map CI.toCrisisObj) := by
  have h := crisisFold_lastMatch effFn reports (CI.initState agents) t
  simpa [CI.processCrisisReports, CI.initState] using h

/-- Counterexample for C2: a resolved severity-0.9 crisis is stored, then a
resolved severity-0.75 report of the same type replaces it even though its
effectiveness is lower — the stored playbook entry ends below a previously
submitted resolved report. -/
theorem C2_crisis_playbook_counterexample :
    ((CI.processCrisisReports effSeverity []
          [(ctxFireHigh, outcResolved), (ctxFireLow, outcResolved)]).crisisResponses
        (some crisisFire)).map effSeverity = some (3/4)
    ∧ effSeverity (CI.toCrisisObj (ctxFireHigh, outcResolved)) = 9/10
    ∧ (CI.toCrisisObj (ctxFireHigh, outcResolved)).resolution = some true
    ∧ ¬((9 : ℚ)/10 ≤ 3/4) := by
  refine ⟨?_, ?_, rfl, by norm_num⟩
  · norm_num [CI.processCrisisReports, CI.initState, CI.learnCrisisManagementCore,
      CI.toCrisisObj, effSeverity, ctxFireHigh, ctxFireLow, outcResolved,
      List.foldl_cons]
  · norm_num [CI.toCrisisObj, effSeverity, ctxFireHigh, outcResolved]

/-- Sample time slot. -/
def slotSeven : String := "19:00"

/-- A bundle whose only confident sub-prediction is an arrival time. -/
def bundleEx : PE.PredictionsBundle :=
  ⟨none, some ⟨slotSeven, 3/4⟩, none, none, none⟩

/-- The default thresholds with the arrival threshold lowered. -/
def lowThresholds : PE.Thresholds := ⟨1/2, 4/5, 3/5, 4/5⟩

/-- Membership in the table-preparation push implies the arrival guard
held. -/
theorem mem_arrivalActions {th : PE.Thresholds} {p : PE.PredictionsBundle}
    {a : PE.ProactiveAction} (h : a ∈ PE.arrivalActions th p) :
    a.type = PE.ActionType.PREPARE_TABLE
    ∧ ∃ ap, p.arrivalTime = some ap ∧ th.arrival < ap.probability := by
  cases harr : p.arrivalTime with
  | none => simp [PE.arrivalActions, harr] at h
  | some ap =>
    by_cases hg : th.arrival < ap.probability
    · simp only [PE.arrivalActions, harr, if_pos hg, List.mem_singleton] at h
      subst h
      exact ⟨rfl, ap, rfl, hg⟩
    · simp [PE.arrivalActions, harr, hg] at h

/-- Membership in the ingredient-prep push implies the next-order guard
held. -/
theorem mem_nextOrderActions {th : PE.Thresholds} {p : PE.PredictionsBundle}
    {a : PE.ProactiveAction} (h : a ∈ PE.nextOrderActions th p) :
    a.type = PE.ActionType.PREP_INGREDIENTS
    ∧ ∃ n, p.nextOrder = some n ∧ th.nextOrder < n.confidence := by
  cases hn : p.nextOrder with
  | none => simp [PE.nextOrderActions, hn] at h
  | some n =>
    by_cases hg : th.nextOrder < n.confidence
    · simp only [PE.nextOrderActions, hn, if_pos hg, List.mem_singleton] at h
      subst h
      exact ⟨rfl, n, rfl, hg⟩
    · simp [PE.nextOrderActions, hn, hg] at h

/-- Membership in the retention push implies the churn guard held. -/
theorem mem_churnActions {th : PE.Thresholds} {p : PE.PredictionsBundle}
    {a : PE.ProactiveAction} (h : a ∈ PE.churnActions th p) :
    a.type = PE.ActionType.RETENTION
    ∧ ∃ cr, p.churnRisk = some cr ∧ th.churn < cr := by
  cases hc : p.churnRisk with
  | none => simp [PE.churnActions, hc] at h
  | some cr =>
    by_cases hg : th.churn < cr
    · simp only [PE.churnActions, hc, if_pos hg, List.mem_singleton] at h
      subst h
      exact ⟨rfl, cr, rfl, hg⟩
    · simp [PE.churnActions, hc, hg] at h

/-- Membership in the special-occasion pushes implies the special-request
guard held for one of the requests. -/
theorem mem_specialActions {th : PE.Thresholds} {p : PE.PredictionsBundle}
    {a : PE.ProactiveAction} (h : a ∈ PE.specialActions th p) :
    a.type = PE.ActionType.SPECIAL_PREP
    ∧ ∃ rs r, p.specialRequest = some rs ∧ r ∈ rs
        ∧ th.special < r.confidence := by
  cases hs : p.specialRequest with
  | none => simp [PE.specialActions, hs] at h
  | some rs =>
    simp only [PE.specialActions, hs] at h
    rw [List.mem_filterMap] at h
    obtain ⟨r, hr, hfr⟩ := h
    by_cases hg : th.special < r.confidence
    · rw [if_pos hg] at hfr
      obtain rfl := Option.some.inj hfr
      exact ⟨rfl, rs, r, rfl, hr, hg⟩
    · rw [if_neg hg] at hfr
      exact absurd hfr (by simp)

/-- A pointwise-stronger partial function filter-maps to a sublist. -/
theorem filterMap_sublist_mono {α β : Type} {f g : α → Option β}
    (h : ∀ x y, f x = some y → g x = some y) (l : List α) :
    (l.filterMap f).Sublist (l.filterMap g) := by
  induction l with
  | nil => simp
  | cons x l ih =>
    rw [List.filterMap_cons, List.filterMap_cons]
    cases hf : f x with
    | none =>
      cases hg : g x with
      | none => exact ih
      | some y => exact ih.cons y
    | some y =>
      rw [h x y hf]
      exact ih.cons₂ y

/-- Lowering the arrival threshold keeps every table-preparation action. -/
theorem arrivalActions_sublist (p : PE.PredictionsBundle)
    {th th' : PE.Thresholds} (h : th'.arrival ≤ th.arrival) :
    (PE.arrivalActions th p).Sublist (PE.arrivalActions th' p) := by
  cases harr : p.arrivalTime with
  | none => simp [PE.arrivalActions, harr]
  | some ap =>
    simp only [PE.arrivalActions, harr]
    by_cases hg : th.arrival < ap.probability
    · rw [if_pos hg, if_pos (lt_of_le_of_lt h hg)]
    · rw [if_neg hg]
      exact List.nil_sublist _

/-- Lowering the next-order threshold keeps every ingredient-prep action. -/
theorem nextOrderActions_sublist (p : PE.PredictionsBundle)
    {th th' : PE.Thresholds} (h : th'.nextOrder ≤ th.nextOrder) :
    (PE.nextOrderActions th p).Sublist (PE.nextOrderActions th' p) := by
  cases hn : p.nextOrder with
  | none => simp [PE.nextOrderActions, hn]
  | some n =>
    simp only [PE.nextOrderActions, hn]
    by_cases hg : th.nextOrder < n.confidence
    · rw [if_pos hg, if_pos (lt_of_le_of_lt h hg)]
    · rw [if_neg hg]
      exact List.nil_sublist _

/-- Lowering the churn threshold keeps every retention action. -/
theorem churnActions_sublist (p : PE.PredictionsBundle)
    {th th' : PE.Thresholds} (h : th'.churn ≤ th.churn) :
    (PE.churnActions th p).Sublist (PE.churnActions th' p) := by
  cases hc : p.churnRisk with
  | none => simp [PE.churnActions, hc]
  | some cr =>
    simp only [PE.churnActions, hc]
    by_cases hg : th.churn < cr
    · rw [if_pos hg, if_pos (lt_of_le_of_lt h hg)]
    · rw [if_neg hg]
      exact List.nil_sublist _

/-- Lowering the special threshold keeps every special-prep action. -/
theorem specialActions_sublist (p : PE.PredictionsBundle)
    {th th' : PE.Thresholds} (h : th'.special ≤ th.special) :
    (PE.specialActions th p).Sublist (PE.specialActions th' p) := by
  cases hs : p.specialRequest with
  | none => simp [PE.specialActions, hs]
  | some rs =>
    simp only [PE.specialActions, hs]
    apply filterMap_sublist_mono
    intro r a hfa
    by_cases hg : th.special < r.confidence
    · rw [if_pos hg] at hfa
      rw [if_pos (lt_of_le_of_lt h hg)]
      exact hfa
    · rw [if_neg hg] at hfa
      exact absurd hfa (by simp)

/-- Claim C9: every generated proactive action is justified by a prediction
that beat its configured threshold, and lowering any thresholds only adds
actions — the previous action list survives as a sublist. -/
theorem C9_proactive_thresholds :
    (∀ (th : PE.Thresholds) (p : PE.PredictionsBundle) (a : PE.ProactiveAction),
        a ∈ PE.generateProactiveActions th p →
        (a.type = PE.ActionType.PREPARE_TABLE →
            ∃ ap, p.arrivalTime = some ap ∧ th.arrival < ap.probability)
        ∧ (a.type = PE.ActionType.PREP_INGREDIENTS →
            ∃ n, p.nextOrder = some n ∧ th.nextOrder < n.confidence)
        ∧ (a.type = PE.ActionType.RETENTION →
            ∃ cr, p.churnRisk = some cr ∧ th.churn < cr)
        ∧ (a.type = PE.ActionType.SPECIAL_PREP →
            ∃ rs r, p.specialRequest = some rs ∧ r ∈ rs
              ∧ th.special < r.confidence))
    ∧ (∀ (th th' : PE.Thresholds) (p : PE.PredictionsBundle),
        th'.arrival ≤ th.arrival → th'.nextOrder ≤ th.nextOrder →
        th'.churn ≤ th.churn → th'.special ≤ th.special →
        (PE.generateProactiveActions th p).Sublist
          (PE.generateProactiveActions th' p)) := by
  constructor
  · intro th p a ha
    simp only [PE.generateProactiveActions, List.mem_append] at ha
    rcases ha with ((h | h) | h) | h
    · obtain ⟨hty, ap, harr, hg⟩ := mem_arrivalActions h
      exact ⟨fun _ => ⟨ap, harr, hg⟩,
        fun ht => absurd (hty.symm.trans ht) (by decide),
        fun ht => absurd (hty.symm.trans ht) (by decide),
        fun ht => absurd (hty.symm.trans ht) (by decide)⟩
    · obtain ⟨hty, n, hn, hg⟩ := mem_nextOrderActions h
      exact ⟨fun ht => absurd (hty.symm.trans ht) (by decide),
        fun _ => ⟨n, hn, hg⟩,
        fun ht => absurd (hty.symm.trans ht) (by decide),
        fun ht => absurd (hty.symm.trans ht) (by decide)⟩
    · obtain ⟨hty, cr, hc, hg⟩ := mem_churnActions h
      exact ⟨fun ht => absurd (hty.symm.trans ht) (by decide),
        fun ht => absurd (hty.symm.trans ht) (by decide),
        fun _ => ⟨cr, hc, hg⟩,
        fun ht => absurd (hty.symm.trans ht) (by decide)⟩
    · obtain ⟨hty, rs, r, hs, hr, hg⟩ := mem_specialActions h
      exact ⟨fun ht => absurd (hty.symm.trans ht) (by decide),
        fun ht => absurd (hty.symm.trans ht) (by decide),
        fun ht => absurd (hty.symm.trans ht) (by decide),
        fun _ => ⟨rs, r, hs, hr, hg⟩⟩
  · intro th th' p h1 h2 h3 h4
    exact (((arrivalActions_sublist p h1).append
      (nextOrderActions_sublist p h2)).append
        (churnActions_sublist p h3)).append (specialActions_sublist p h4)

/-- Witness for C9: lowering only the arrival threshold keeps the action
list generated at the source's default thresholds as a sublist. -/
theorem C9_proactive_thresholds_witness :
    (PE.generateProactiveActions PE.defaultThresholds bundleEx).Sublist
      (PE.generateProactiveActions lowThresholds bundleEx) :=
  C9_proactive_thresholds.2 PE.defaultThresholds lowThresholds bundleEx
    (by norm_num [PE.defaultThresholds, lowThresholds])
    (by norm_num [PE.defaultThresholds, lowThresholds])
    (by norm_num [PE.defaultThresholds, lowThresholds])
    (by norm_num [PE.defaultThresholds, lowThresholds])

/-- A neutral effectiveness scorer for concrete dispatcher runs. -/
def demoEff : CI.CrisisObj → ℚ := fun _ => 0

/-- A neutral team-dynamics scorer for concrete dispatcher runs. -/
def demoTeam : CI.Collab → ℚ := fun _ => 0

/-- A context object with every situational field missing. -/
def emptyCtx : CI.Ctx := ⟨none, none, none, none, none, none, none, none, none⟩

/-- An outcome object with every field missing. -/
def emptyOutc : CI.Outc := ⟨none, none, none, none, none⟩

/-- A customer-interaction report whose `context` object is absent. -/
def msgNoContext : CI.Msg :=
  ⟨some CI.kindCustomerInteraction, none, none, none, none, none, none, none⟩

/-- A customer-interaction report whose containers exist but carry no
fields. -/
def msgEmptyFields : CI.Msg :=
  ⟨some CI.kindCustomerInteraction, some emptyCtx, some emptyOutc, none, none,
    none, none, none⟩

/-- Claim C4 (amended): a malformed report is not dropped with a warning —
when the field object its kind dereferences is absent the handler throws an
uncaught `TypeError` out of the message callback (as does a `JSON.parse`
failure), and when the containers exist but the required inner fields are
missing the report is stored anyway, with undefined values, and processing
continues. -/
theorem C4_malformed_reports_amended :
    (∀ (effFn : CI.CrisisObj → ℚ) (teamFn : CI.Collab → ℚ)
        (st : CI.CoordState) (agentId : CI.AgentId) (msg : CI.Msg),
        msg.type = some CI.kindCustomerInteraction → msg.context = none →
        CI.processAgentCommunication effFn teamFn st agentId msg
          = Except.error JsError.typeError)
    ∧ (∀ (effFn : CI.CrisisObj → ℚ) (teamFn : CI.Collab → ℚ)
        (st : CI.CoordState) (agentId : CI.AgentId) (msg : CI.Msg),
        msg.type = some CI.kindEmotionalRead → msg.emotion = none →
        CI.processAgentCommunication effFn teamFn st agentId msg
          = Except.error JsError.typeError)
    ∧ (∀ (effFn : CI.CrisisObj → ℚ) (teamFn : CI.Collab → ℚ)
        (st : CI.CoordState) (agentId : CI.AgentId) (e : JsError),
        CI.meshMessageHandler effFn teamFn st agentId (Except.error e)
          = Except.error e)
    ∧ (∀ (effFn : CI.CrisisObj → ℚ) (teamFn : CI.Collab → ℚ)
        (st : CI.CoordState) (agentId : CI.AgentId),
        ∃ st2 effs,
          CI.processAgentCommunication effFn teamFn st agentId msgEmptyFields
              = Except.ok (st2, effs)
          ∧ st2.customerPatterns none
              = some ((st.customerPatterns none).getD []
                  ++ [⟨none, none, none, none⟩])) := by
  refine ⟨?_, ?_, ?_, ?_⟩
  · intro effFn teamFn st agentId msg hty hctx
    obtain ⟨ty, ctx, outc, emo, lear, ags, tsk, coord⟩ := msg
    simp only at hty hctx
    subst hty
    subst hctx
    simp only [CI.processAgentCommunication, CI.learnFromCustomerInteraction,
      if_pos rfl]
    rfl
  · intro effFn teamFn st agentId msg hty hemo
    obtain ⟨ty, ctx, outc, emo, lear, ags, tsk, coord⟩ := msg
    simp only at hty hemo
    subst hty
    subst hemo
    simp only [CI.processAgentCommunication, CI.updateEmotionalIntelligence]
    rfl
  · intro effFn teamFn st agentId e
    rfl
  · intro effFn teamFn st agentId
    refine ⟨_, _, rfl, ?_⟩
    simp [CI.processAgentCommunication, CI.learnFromCustomerInteraction,
      CI.learnFromCustomerInteractionCore, msgEmptyFields, emptyCtx, emptyOutc,
      jsGT]

/-- Counterexample for C4: a customer-interaction report with no `context`
object makes the coordinator's handler throw a `TypeError` — it is neither
dropped nor logged, contradicting the claimed drop-with-warning policy. -/
theorem C4_malformed_reports_counterexample :
    CI.processAgentCommunication demoEff demoTeam (CI.initState []) agentA
        msgNoContext
      = Except.error JsError.typeError := rfl

/-- Witness for C4 (amended): the missing-context case throws on a concrete
coordinator with one connected agent. -/
theorem C4_malformed_reports_witness :
    CI.processAgentCommunication demoEff demoTeam
        (CI.initState [(agentA, CI.ReadyState.OPEN)]) agentB
        ⟨some CI.kindCustomerInteraction, none, some emptyOutc, none, none,
          none, none, none⟩
      = Except.error JsError.typeError :=
  C4_malformed_reports_amended.1 demoEff demoTeam
    (CI.initState [(agentA, CI.ReadyState.OPEN)]) agentB
    ⟨some CI.kindCustomerInteraction, none, some emptyOutc, none, none,
      none, none, none⟩ rfl rfl

/-- Claim C10: for every node id and limit, `findStrongestConnections`
returns at most `limit` edges, sorted by non-increasing weight, and a node
with no recorded edges yields the empty list rather than a failure. -/
theorem C10_strongest_connections (g : RelGraph.Graph) (nodeId : String)
    (limit : ℕ) :
    (RelGraph.findStrongestConnections g nodeId limit).length ≤ limit
    ∧ List.Sorted RelGraph.edgeGE (RelGraph.findStrongestConnections g nodeId limit)
    ∧ (g.edges nodeId = none →
        RelGraph.findStrongestConnections g nodeId limit = []) := by
  refine ⟨List.length_take_le _ _, ?_, ?_⟩
  · exact List.Pairwise.sublist (List.take_sublist _ _)
      (List.sorted_insertionSort _ _)
  · intro h
    simp [RelGraph.findStrongestConnections, h]

/-- Witness for C10: on a graph with no recorded edges the query returns the
empty list. -/
theorem C10_strongest_connections_witness :
    RelGraph.findStrongestConnections gEmptyExample nodeX 3 = [] :=
  (C10_strongest_connections gEmptyExample nodeX 3).2.2 rfl

/-- Claim C8: a learning payload is delivered to an agent exactly when that
agent has an `OPEN` connection and is not the originating agent. -/
theorem C8_broadcast_recipients (agents : List (CI.AgentId × CI.ReadyState))
    (src : CI.AgentId) (learning : Option String) (a : CI.AgentId) :
    CI.Effect.send a src learning ∈ CI.broadcastLearning agents src learning
      ↔ ((a, CI.ReadyState.OPEN) ∈ agents ∧ a ≠ src) := by
  constructor
  · intro h
    simp only [CI.broadcastLearning, List.mem_filterMap] at h
    obtain ⟨e, he, hsome⟩ := h
    by_cases hc : e.1 ≠ src ∧ e.2 = CI.ReadyState.OPEN
    · rw [if_pos hc] at hsome
      simp only [Option.some.injEq, CI.Effect.send.injEq] at hsome
      obtain ⟨h1, -, -⟩ := hsome
      refine ⟨?_, h1 ▸ hc.1⟩
      have : e = (a, CI.ReadyState.OPEN) := Prod.ext h1 hc.2
      exact this ▸ he
    · rw [if_neg hc] at hsome
      exact absurd hsome (by simp)
  · rintro ⟨ha, hne⟩
    simp only [CI.broadcastLearning, List.mem_filterMap]
    exact ⟨(a, CI.ReadyState.OPEN), ha, by simp [hne]⟩

/-- Witness for C8: with two open connections, the non-originating agent
receives the learning message. -/
theorem C8_broadcast_recipients_witness :
    CI.Effect.send agentB agentA none ∈
      CI.broadcastLearning
        [(agentA, CI.ReadyState.OPEN), (agentB, CI.ReadyState.OPEN)] agentA none :=
  (C8_broadcast_recipients
      [(agentA, CI.ReadyState.OPEN), (agentB, CI.ReadyState.OPEN)]
      agentA none agentB).mpr ⟨by decide, by decide⟩

/-- Claim C3 (amended): `predictNextOrder` with fewer than 3 history entries
returns `{ items: [], confidence: 0 }`, but `forecastDemand` has no
insufficient-history guard: with an empty history the tensor construction
throws instead of returning confidence-0 predictions. -/
theorem C3_insufficient_history_amended :
    (∀ (α : Type) (model : List α → List String × ℚ) (history : List α),
        history.length < 3 → PE.predictNextOrder model history = ⟨[], 0⟩)
    ∧ (∀ (model : List (List ℚ) → List ℚ) (confF : List (List ℚ) → ℕ → ℚ)
        (topItems : List (String × ℚ)),
        PE.forecastDemand model confF topItems []
          = Except.error JsError.tensorShapeError) := by
  constructor
  · intro α model history h
    simp [PE.predictNextOrder, h]
  · intro model confF topItems
    rfl

/-- Counterexample for C3: on an empty demand history `forecastDemand`
throws (the tensor constructor rejects the empty array); it does not return
confidence-0 predictions. -/
theorem C3_forecast_throws_counterexample :
    PE.forecastDemand demoModel demoConf [] []
      = Except.error JsError.tensorShapeError := rfl

/-- Witness for C3 (amended): a two-entry history is below the minimum and
produces the zero-confidence result. -/
theorem C3_insufficient_history_witness :
    PE.predictNextOrder demoOrderModel [1, 2] = ⟨[], 0⟩ :=
  C3_insufficient_history_amended.1 ℕ demoOrderModel [1, 2] (by decide)

/-- Bounds for the weighted accumulation: with unit-interval confidences, at
least as many nonnegative weights as confidences, the sum lies between 0 and
the total weight. -/
theorem weightedConfSum_bounds (cs ws : List ℚ)
    (hc : ∀ c ∈ cs, 0 ≤ c ∧ c ≤ 1) (hw : ∀ w ∈ ws, 0 ≤ w)
    (hlen : cs.length ≤ ws.length) :
    0 ≤ PE.weightedConfSum ws cs ∧ PE.weightedConfSum ws cs ≤ ws.sum := by
  induction cs generalizing ws with
  | nil =>
    constructor
    · cases ws <;> simp [PE.weightedConfSum]
    · have : PE.weightedConfSum ws [] = 0 := by cases ws <;> rfl
      rw [this]
      exact List.sum_nonneg hw
  | cons c cs ih =>
    cases ws with
    | nil => simp at hlen
    | cons w ws =>
      have hcw : 0 ≤ c ∧ c ≤ 1 := hc c (by simp)
      have hww : 0 ≤ w := hw w (by simp)
      have ih2 := ih ws (fun x hx => hc x (List.mem_cons_of_mem _ hx))
        (fun x hx => hw x (List.mem_cons_of_mem _ hx)) (by simpa using hlen)
      constructor
      · have : 0 ≤ c * w := mul_nonneg hcw.1 hww
        simpa [PE.weightedConfSum] using add_nonneg this ih2.1
      · have h1 : c * w ≤ w := mul_le_of_le_one_left hww hcw.2

        calc PE.weightedConfSum (w :: ws) (c :: cs)
            = c * w + PE.weightedConfSum ws cs := rfl
          _ ≤ w + ws.sum := add_le_add h1 ih2.2
          _ = (w :: ws).sum := (List.sum_cons).symm

/-- Claim C6 (amended): `calculateConfidence` excludes absent (and zero)
confidences and pairs the survivors positionally with the fixed weights
`[0.3, 0.2, 0.2, 0.15, 0.15]` (0.1 past the end) without renormalising; for
at most 5 sub-predictions with unit-interval confidences the result lies in
`[0, 1]`, but it is a weighted sum, not a weighted mean of the present
sub-confidences. -/
theorem C6_composite_confidence_amended :
    (∀ rest : List (Option ℚ),
        PE.calculateConfidence (none :: rest) = PE.calculateConfidence rest
        ∧ PE.calculateConfidence (some 0 :: rest) = PE.calculateConfidence rest)
    ∧ (∀ preds : List (Option ℚ), preds.length ≤ 5 →
        (∀ c ∈ preds.filterMap id, 0 ≤ c ∧ c ≤ 1) →
        0 ≤ PE.calculateConfidence preds ∧ PE.calculateConfidence preds ≤ 1) := by
  constructor
  · intro rest
    constructor
    · simp [PE.calculateConfidence]
    · simp [PE.calculateConfidence]
  · intro preds hlen hmem
    have hcs : ∀ c ∈ (preds.filterMap id).filter (fun c => !(c == 0)),
        0 ≤ c ∧ c ≤ 1 := by
      intro c hcf
      exact hmem c (List.mem_of_mem_filter hcf)
    have hws : ∀ w ∈ PE.confWeights, 0 ≤ w := by
      intro w hmem
      simp [PE.confWeights] at hmem
      rcases hmem with rfl | rfl | rfl | rfl | rfl <;> norm_num
    have hlen2 : ((preds.filterMap id).filter (fun c => !(c == 0))).length
        ≤ PE.confWeights.length := by
      have h1 := List.length_filter_le (fun c => !(c == 0)) (preds.filterMap id)
      have h2 := List.length_filterMap_le id preds
      have : PE.confWeights.length = 5 := rfl
      omega
    have hb := weightedConfSum_bounds _ _ hcs hws hlen2
    have hsum : PE.confWeights.sum = 1 := by norm_num [PE.confWeights]
    exact ⟨hb.1, by calc PE.calculateConfidence preds
        ≤ PE.confWeights.sum := hb.2
      _ = 1 := hsum⟩

/-- Counterexample for C6: a lone sub-prediction of confidence 1 yields the
composite 0.3 — any weighted mean with renormalised weights would yield
1. -/
theorem C6_no_renormalisation_counterexample :
    PE.calculateConfidence [some 1] = 3/10 ∧ ¬((3 : ℚ)/10 = 1) := by
  constructor
  · norm_num [PE.calculateConfidence, PE.weightedConfSum, PE.confWeights]
  · norm_num

/-- Witness for C6 (amended): a two-prediction bundle with one absent entry
stays inside the unit interval. -/
theorem C6_composite_confidence_witness :
    0 ≤ PE.calculateConfidence [some 1, none]
    ∧ PE.calculateConfidence [some 1, none] ≤ 1 :=
  C6_composite_confidence_amended.2 [some 1, none] (by decide) (by decide)

end RVT
